import Mathlib

/-!
Verification of the Marstek UDP client and poll coordinator.

Shallow embedding of `custom_components/marstek/api.py` and
`custom_components/marstek/coordinator.py`.

Python values appearing in JSON payloads are modelled by `Json`
(numbers as rationals; `json.loads` produces `dict`/`list`/`str`/
numbers/`bool`/`None`).  Python's `dict` is modelled as an ordered,
duplicate-free association list: insertion of an existing key replaces
the value in place, insertion of a fresh key appends, matching CPython
insertion-order semantics.
-/

namespace Marstek

/-- JSON values as produced by Python's `json.loads`.  Integers and
floats are both modelled as rationals; `Json.null` doubles as Python's
`None` (they are the same object at runtime). -/
inductive Json where
  | null
  | bool (b : Bool)
  | num (q : ℚ)
  | str (s : String)
  | arr (xs : List Json)
  | obj (kvs : List (String × Json))

/-- Model of `d[k] = v` on a Python dict: replace in place if the key exists,
else append (insertion order preserved). -/
def dset (d : List (String × Json)) (k : String) (v : Json) :
    List (String × Json) :=
  if d.any (fun kv => kv.1 = k) then
    d.map (fun kv => if kv.1 = k then (k, v) else kv)
  else d ++ [(k, v)]

/-- Model of `d.get(k)`: Python returns `None` (= JSON null) when the key is
absent. -/
def jget (d : List (String × Json)) (k : String) : Json :=
  match d.find? (fun kv => kv.1 = k) with
  | some kv => kv.2
  | none => Json.null

/-- Whether key `k` is present in the dict (Python `k in d`). -/
def jmem (d : List (String × Json)) (k : String) : Bool :=
  (d.find? (fun kv => kv.1 = k)).isSome

/-- Python truthiness `bool(x)` of a JSON value: `None` and `False` are
falsy, numbers are truthy iff nonzero, strings/lists/dicts are truthy
iff nonempty. -/
def pyTruthy : Json → Bool
  | Json.null => false
  | Json.bool b => b
  | Json.num q => decide (q ≠ 0)
  | Json.str s => decide (s ≠ "")
  | Json.arr xs => !xs.isEmpty
  | Json.obj kvs => !kvs.isEmpty

/-- Python equality `x == n` between a JSON value and an `int` `n`:
numbers compare numerically and `bool` is a subtype of `int`
(`True == 1`, `False == 0`); all other types compare unequal. -/
def pyEqInt : Json → ℤ → Bool
  | Json.num q, n => decide (q = (n : ℚ))
  | Json.bool b, n => decide ((if b then (1 : ℤ) else 0) = n)
  | _, _ => false

/-- A continuation byte `0x80 ≤ b ≤ 0xBF`. -/
def contByte (b : ℕ) : Bool := 0x80 ≤ b && b ≤ 0xBF

/-- Lower bound for the first continuation byte of a 3-byte sequence,
depending on the lead byte (excludes overlong encodings). -/
def lo3 (b : ℕ) : ℕ := if b = 0xE0 then 0xA0 else 0x80

/-- Upper bound for the first continuation byte of a 3-byte sequence
(excludes UTF-16 surrogates for lead `0xED`). -/
def hi3 (b : ℕ) : ℕ := if b = 0xED then 0x9F else 0xBF

/-- Lower bound for the first continuation byte of a 4-byte sequence. -/
def lo4 (b : ℕ) : ℕ := if b = 0xF0 then 0x90 else 0x80

/-- Upper bound for the first continuation byte of a 4-byte sequence
(caps code points at `U+10FFFF` for lead `0xF4`). -/
def hi4 (b : ℕ) : ℕ := if b = 0xF4 then 0x8F else 0xBF

/-- Worker for `utf8DecodeIgnore`, structurally recursive on a fuel
argument; every step consumes at least one byte, so fuel equal to the
input length never runs out. -/
def utf8DecodeIgnoreAux : ℕ → List ℕ → List Char
  | 0, _ => []
  | _ + 1, [] => []
  | fuel + 1, b :: rest =>
    let utf8DecodeIgnore := utf8DecodeIgnoreAux fuel
    if b < 0x80 then Char.ofNat b :: utf8DecodeIgnore rest
    else if 0xC2 ≤ b && b ≤ 0xDF then
      match rest with
      | [] => []
      | b2 :: rest2 =>
        if contByte b2 then
          Char.ofNat ((b - 0xC0) * 64 + (b2 - 0x80)) :: utf8DecodeIgnore rest2
        else utf8DecodeIgnore rest
    else if 0xE0 ≤ b && b ≤ 0xEF then
      match rest with
      | [] => []
      | b2 :: rest2 =>
        if lo3 b ≤ b2 && b2 ≤ hi3 b then
          match rest2 with
          | [] => []
          | b3 :: rest3 =>
            if contByte b3 then
              Char.ofNat ((b - 0xE0) * 4096 + (b2 - 0x80) * 64 + (b3 - 0x80)) ::
                utf8DecodeIgnore rest3
            else utf8DecodeIgnore rest2
        else utf8DecodeIgnore rest
    else if 0xF0 ≤ b && b ≤ 0xF4 then
      match rest with
      | [] => []
      | b2 :: rest2 =>
        if lo4 b ≤ b2 && b2 ≤ hi4 b then
          match rest2 with
          | [] => []
          | b3 :: rest3 =>
            if contByte b3 then
              match rest3 with
              | [] => []
              | b4 :: rest4 =>
                if contByte b4 then
                  Char.ofNat ((b - 0xF0) * 262144 + (b2 - 0x80) * 4096 +
                      (b3 - 0x80) * 64 + (b4 - 0x80)) :: utf8DecodeIgnore rest4
                else utf8DecodeIgnore rest3
            else utf8DecodeIgnore rest2
        else utf8DecodeIgnore rest
    else utf8DecodeIgnore rest

/-- Model of `bytes.decode("utf-8", "ignore")`: decode a byte sequence to text,
silently skipping invalid subsequences (the invalid lead byte together
with any valid continuation bytes already consumed is dropped and
decoding resumes at the first offending byte; a truncated sequence at
end of input is dropped). -/
def utf8DecodeIgnore (bs : List ℕ) : List Char :=
  utf8DecodeIgnoreAux bs.length bs

/-- Worker for `utf8Valid`, structurally recursive on fuel. -/
def utf8ValidAux : ℕ → List ℕ → Bool
  | 0, l => l.isEmpty
  | _ + 1, [] => true
  | fuel + 1, b :: rest =>
    let utf8Valid := utf8ValidAux fuel
    if b < 0x80 then utf8Valid rest
    else if 0xC2 ≤ b && b ≤ 0xDF then
      match rest with
      | [] => false
      | b2 :: rest2 => contByte b2 && utf8Valid rest2
    else if 0xE0 ≤ b && b ≤ 0xEF then
      match rest with
      | [] => false
      | b2 :: rest2 =>
        (lo3 b ≤ b2 && b2 ≤ hi3 b) &&
          match rest2 with
          | [] => false
          | b3 :: rest3 => contByte b3 && utf8Valid rest3
    else if 0xF0 ≤ b && b ≤ 0xF4 then
      match rest with
      | [] => false
      | b2 :: rest2 =>
        (lo4 b ≤ b2 && b2 ≤ hi4 b) &&
          match rest2 with
          | [] => false
          | b3 :: rest3 =>
            contByte b3 &&
              match rest3 with
              | [] => false
              | b4 :: rest4 => contByte b4 && utf8Valid rest4
    else false

/-- Strict UTF-8 validity: `true` iff `bytes.decode("utf-8")` (strict
mode) would succeed on the whole byte sequence. -/
def utf8Valid (bs : List ℕ) : Bool :=
  utf8ValidAux bs.length bs

/-! ## `json.loads`

A model of Python's `json.loads` over a character list: JSON values
with strict strings (raw control characters rejected), the standard
number grammar (no leading zeros), literals `true`/`false`/`null`,
arrays and objects (duplicate keys: the last occurrence wins, as in a
Python dict).  Modelling restrictions: the non-standard `NaN`/
`Infinity` literals are treated as parse failures, and `\\u` surrogate
pairs are not combined — neither occurs in the device protocol. -/

/-- JSON whitespace. -/
def isWs (c : Char) : Bool :=
  c = ' ' || c = '\t' || c = '\n' || c = Char.ofNat 13

/-- Drop leading JSON whitespace. -/
def skipWs : List Char → List Char
  | [] => []
  | c :: rest => if isWs c then skipWs rest else c :: rest

/-- Longest digit prefix and the remainder. -/
def takeDigits : List Char → List Char × List Char
  | [] => ([], [])
  | c :: rest =>
    if c.isDigit then
      let (ds, r) := takeDigits rest
      (c :: ds, r)
    else ([], c :: rest)

/-- Natural number denoted by a digit string. -/
def natFromDigits (ds : List Char) : ℕ :=
  ds.foldl (fun a c => a * 10 + (c.toNat - 48)) 0

/-- Value of a hexadecimal digit. -/
def hexVal (c : Char) : Option ℕ :=
  if '0' ≤ c ∧ c ≤ '9' then some (c.toNat - 48)
  else if 'a' ≤ c ∧ c ≤ 'f' then some (c.toNat - 87)
  else if 'A' ≤ c ∧ c ≤ 'F' then some (c.toNat - 55)
  else none

/-- Optional fraction part (`.digits`), returned as its digit string;
no dot means no fraction digits. -/
def parseFrac : List Char → Option (List Char × List Char)
  | '.' :: r =>
    match takeDigits r with
    | ([], _) => none
    | (ds, r2) => some (ds, r2)
  | cs => some ([], cs)

/-- Optional exponent part (`e`/`E`, optional sign, digits). -/
def parseExp : List Char → Option (ℤ × List Char)
  | [] => some (0, [])
  | c :: r =>
    if c = 'e' || c = 'E' then
      let (sgn, r1) : ℤ × List Char :=
        match r with
        | '+' :: r2 => (1, r2)
        | '-' :: r2 => (-1, r2)
        | _ => (1, r)
      match takeDigits r1 with
      | ([], _) => none
      | (ds, r2) => some (sgn * (natFromDigits ds : ℤ), r2)
    else some (0, c :: r)

/-- Rational value of a parsed number: integer digits `ds`, fraction
digits `fds`, exponent `e`, sign `neg`; namely
`± (ds.fds) · 10^e`, assembled with the exact rational
`(mantissa · 10^max(e,0)) / 10^(|fds| + max(-e,0))`. -/
def qOfParts (neg : Bool) (ds fds : List Char) (e : ℤ) : ℚ :=
  let mant : ℤ := (natFromDigits ds * 10 ^ fds.length + natFromDigits fds : ℕ)
  let mant : ℤ := if neg then -mant else mant
  Rat.divInt (mant * ((10 ^ e.toNat : ℕ) : ℤ))
    ((10 ^ (fds.length + (-e).toNat) : ℕ) : ℤ)

/-- JSON number: `-? int frac? exp?`, leading zeros rejected. -/
def parseNumber (cs : List Char) : Option (ℚ × List Char) :=
  let (neg, cs1) : Bool × List Char :=
    match cs with
    | '-' :: r => (true, r)
    | _ => (false, cs)
  match takeDigits cs1 with
  | ([], _) => none
  | (ds, cs2) =>
    if 1 < ds.length ∧ ds.head? = some '0' then none
    else
      match parseFrac cs2 with
      | none => none
      | some (fds, cs3) =>
        match parseExp cs3 with
        | none => none
        | some (e, cs4) => some (qOfParts neg ds fds e, cs4)

/-- Body of a JSON string after the opening quote: returns the decoded
characters and the input past the closing quote.  Strict mode: raw
control characters are rejected; escapes are the standard eight plus
`\\uXXXX`. -/
def parseStringAux : ℕ → List Char → Option (List Char × List Char)
  | 0, _ => none
  | _ + 1, [] => none
  | fuel + 1, c :: rest =>
    if c = '"' then some ([], rest)
    else if c = '\\' then
      match rest with
      | [] => none
      | e :: rest2 =>
        let simple : Option Char :=
          if e = '"' then some '"'
          else if e = '\\' then some '\\'
          else if e = '/' then some '/'
          else if e = 'b' then some (Char.ofNat 8)
          else if e = 'f' then some (Char.ofNat 12)
          else if e = 'n' then some '\n'
          else if e = 'r' then some (Char.ofNat 13)
          else if e = 't' then some '\t'
          else none
        match simple with
        | some ch => (parseStringAux fuel rest2).map (fun p => (ch :: p.1, p.2))
        | none =>
          if e = 'u' then
            match rest2 with
            | h1 :: h2 :: h3 :: h4 :: rest3 =>
              match hexVal h1, hexVal h2, hexVal h3, hexVal h4 with
              | some v1, some v2, some v3, some v4 =>
                (parseStringAux fuel rest3).map
                  (fun p => (Char.ofNat (v1 * 4096 + v2 * 256 + v3 * 16 + v4) :: p.1, p.2))
              | _, _, _, _ => none
            | _ => none
          else none
    else if c.toNat < 0x20 then none
    else (parseStringAux fuel rest).map (fun p => (c :: p.1, p.2))

mutual

/-- Parse one JSON value (fuel-bounded; fuel strictly exceeding the
input length always suffices, since every recursive step first consumes
at least one character). -/
def parseValue : ℕ → List Char → Option (Json × List Char)
  | 0, _ => none
  | fuel + 1, cs =>
    match skipWs cs with
    | [] => none
    | c :: rest =>
      if c = '{' then parseObjBody fuel true [] rest
      else if c = '[' then parseArrBody fuel true [] rest
      else if c = '"' then
        (parseStringAux (rest.length + 1) rest).map
          (fun p => (Json.str (String.mk p.1), p.2))
      else if c = 't' then
        match rest with
        | 'r' :: 'u' :: 'e' :: r => some (Json.bool true, r)
        | _ => none
      else if c = 'f' then
        match rest with
        | 'a' :: 'l' :: 's' :: 'e' :: r => some (Json.bool false, r)
        | _ => none
      else if c = 'n' then
        match rest with
        | 'u' :: 'l' :: 'l' :: r => some (Json.null, r)
        | _ => none
      else (parseNumber (c :: rest)).map (fun p => (Json.num p.1, p.2))

/-- Members of a JSON object, positioned just after `{` (when `first`)
or just after a `,`.  Duplicate keys overwrite (`dset`), as in a Python
dict. -/
def parseObjBody : ℕ → Bool → List (String × Json) → List Char →
    Option (Json × List Char)
  | 0, _, _, _ => none
  | fuel + 1, first, acc, cs =>
    match skipWs cs with
    | [] => none
    | c :: rest =>
      if c = '}' then
        if first then some (Json.obj acc, rest) else none
      else if c = '"' then
        match parseStringAux (rest.length + 1) rest with
        | none => none
        | some (key, r1) =>
          match skipWs r1 with
          | ':' :: r2 =>
            match parseValue fuel r2 with
            | none => none
            | some (v, r3) =>
              let acc2 := dset acc (String.mk key) v
              match skipWs r3 with
              | ',' :: r4 => parseObjBody fuel false acc2 r4
              | '}' :: r4 => some (Json.obj acc2, r4)
              | _ => none
          | _ => none
      else none

/-- Items of a JSON array, positioned just after `[` (when `first`) or
just after a `,`. -/
def parseArrBody : ℕ → Bool → List Json → List Char →
    Option (Json × List Char)
  | 0, _, _, _ => none
  | fuel + 1, first, acc, cs =>
    match skipWs cs with
    | [] => none
    | c :: rest =>
      if c = ']' then
        if first then some (Json.arr acc.reverse, rest) else none
      else
        match parseValue fuel (c :: rest) with
        | none => none
        | some (v, r1) =>
          match skipWs r1 with
          | ',' :: r2 => parseArrBody fuel false (v :: acc) r2
          | ']' :: r2 => some (Json.arr (v :: acc).reverse, r2)
          | _ => none

end

/-- Model of `json.loads(text)`: parse one JSON value, allowing surrounding
whitespace and rejecting trailing input. -/
def jsonLoads (cs : List Char) : Option Json :=
  match parseValue (cs.length + 1) cs with
  | some (v, rest) => if (skipWs rest).isEmpty then some v else none
  | none => none

/-! ## Transaction client (`MarstekApiClient._udp_call`)

The receive loop of `_udp_call` (api.py lines 195–231) is modelled over
the sequence of datagrams that arrive on the socket, each carrying its
raw bytes, sender address `(ip, port)` and arrival instant.  The
absolute deadline `loop.time() + timeout` is fixed before the loop and
never changes; a datagram arriving at or after it is never consumed
(`remaining <= 0` / `asyncio.wait_for` timeout), and exhausting the
sequence models a timeout.  `addr` from a UDP datagram is always a
nonempty `(host, port)` tuple, so the source's `if addr and ...` guard
reduces to the address comparison. -/

/-- One received UDP datagram: raw payload bytes, sender IP, sender
port, arrival instant. -/
structure Frame where
  payload : List ℕ
  ip : String
  port : ℕ
  time : ℚ

/-- The per-datagram decision of the receive loop, in source order:
decode with `errors="ignore"`, drop the frame if the sender IP differs
from the configured device IP, drop if the text is not JSON, drop if
the JSON is not an object, drop if `obj.get("id") != req_id`; otherwise
this is the accepted reply. -/
def frameAccept (reqId : ℤ) (deviceIp : String) (f : Frame) : Option Json :=
  if f.ip ≠ deviceIp then none
  else
    match jsonLoads (utf8DecodeIgnore f.payload) with
    | none => none
    | some obj =>
      match obj with
      | Json.obj kvs => if pyEqInt (jget kvs "id") reqId then some obj else none
      | _ => none

/-- The receive loop of `_udp_call`: process arriving datagrams in
order against the fixed absolute `deadline`; return the first accepted
reply, or `none` (timeout) when the deadline passes or no further
datagram arrives.  Written by direct translation of the source loop;
each discard re-enters the loop with the same deadline. -/
def recvLoop (deadline : ℚ) (reqId : ℤ) (deviceIp : String) :
    List Frame → Option Json
  | [] => none
  | f :: rest =>
    if deadline ≤ f.time then none
    else if f.ip ≠ deviceIp then recvLoop deadline reqId deviceIp rest
    else
      match jsonLoads (utf8DecodeIgnore f.payload) with
      | none => recvLoop deadline reqId deviceIp rest
      | some obj =>
        match obj with
        | Json.obj kvs =>
          if pyEqInt (jget kvs "id") reqId then some obj
          else recvLoop deadline reqId deviceIp rest
        | _ => recvLoop deadline reqId deviceIp rest

/-! ### Resource handling of `_udp_call` (api.py lines 166–246)

`_udp_call` is modelled as a function of an environment describing
which of its fallible steps succeed.  The outcome records the value
`_udp_call` produces (`some r` for a normal return, `none` when an
exception escapes), and whether the socket/endpoint was closed and the
per-port gate (`async with _port_lock(...)`) released on that path.
After `loop.create_datagram_endpoint` succeeds the local variable
`sock` is set to `None` (handover) and closing the transport closes the
underlying socket, so "endpoint closed" means: `sock.close()` ran if
the transport was never created, `transport.close()` ran otherwise. -/

/-- Which fallible steps of one `_udp_call` invocation succeed, and the
datagrams that arrive. -/
structure UdpEnv where
  bindOk : Bool
  createOk : Bool
  sendOk : Bool
  frames : List Frame

/-- Result of one `_udp_call` invocation together with its resource
effects. -/
structure UdpOutcome where
  ret : Option (Option Json)
  endpointClosed : Bool
  gateReleased : Bool

/-- Control flow of `_udp_call` over an environment: bind failure is
caught, closes the socket and returns `None`; a failure of
`create_datagram_endpoint` propagates out after the outer `finally`
closes the socket and the `async with` releases the gate; a failure of
`sendto` (or anything inside the inner `try`) is caught, returns `None`
after the inner `finally` closes the transport; otherwise the receive
loop's verdict is returned, with the transport closed on the way out. -/
def udpCall (deadline : ℚ) (reqId : ℤ) (deviceIp : String) (env : UdpEnv) :
    UdpOutcome :=
  if !env.bindOk then
    { ret := some none, endpointClosed := true, gateReleased := true }
  else if !env.createOk then
    { ret := none, endpointClosed := true, gateReleased := true }
  else if !env.sendOk then
    { ret := some none, endpointClosed := true, gateReleased := true }
  else
    { ret := some (recvLoop deadline reqId deviceIp env.frames),
      endpointClosed := true, gateReleased := true }

/-! ## Device command surface -/

/-- Model of `MarstekApiClient._next_id` (api.py lines 132–136): the stored
request counter is bumped, masked to 31 bits, and bumped past `0`; the
new counter value is also the issued identifier. -/
def nextId (s : ℕ) : ℕ :=
  let t := (s + 1) &&& 0x7FFFFFFF
  if t = 0 then 1 else t

/-- Identifiers issued by `n` consecutive operations, starting from
counter state `s`; every operation calls `_next_id` unconditionally
before its transaction, whether or not previous transactions failed. -/
def idSeq (s : ℕ) : ℕ → List ℕ
  | 0 => []
  | n + 1 => nextId s :: idSeq (nextId s) n

/-- Model of the interpretation `MarstekApiClient.set_mode` applies to its transaction's
reply (api.py lines 293–300): `False` without a usable reply or when
`result` is not a dict; otherwise `bool(result.get("set_result"))`,
defaulting to `True` when `result.get("set_result")` is `None` — which
happens both when the key is absent and when its value is JSON null. -/
def setModeResult (resp : Option Json) : Bool :=
  match resp with
  | none => false
  | some r =>
    if !pyTruthy r then false
    else
      match r with
      | Json.obj kvs =>
        match jget kvs "result" with
        | Json.obj rkvs =>
          match jget rkvs "set_result" with
          | Json.null => true
          | ok => pyTruthy ok
        | _ => false
      | _ => false

/-! ## Typed query results (api.py dataclasses)

The three response records.  Numeric fields are modelled as rationals
(`from_dict` copies whatever number the device sent, int or float);
flags as booleans, `error_code` and `mode` as strings.  A `none` field
is an absent value (Python `None`). -/

/-- The `EnergyStatus` dataclass (ES.GetStatus result). -/
structure EnergyStatus where
  id : ℚ := 0
  bat_soc : Option ℚ := none
  bat_cap : Option ℚ := none
  pv_power : Option ℚ := none
  ongrid_power : Option ℚ := none
  offgrid_power : Option ℚ := none
  bat_power : Option ℚ := none
  total_pv_energy : Option ℚ := none
  total_grid_output_energy : Option ℚ := none
  total_grid_input_energy : Option ℚ := none
  total_load_energy : Option ℚ := none

/-- The `BatteryStatus` dataclass (Bat.GetStatus result). -/
structure BatteryStatus where
  id : ℚ := 0
  soc : Option ℚ := none
  charg_flag : Option Bool := none
  dischrg_flag : Option Bool := none
  bat_temp : Option ℚ := none
  bat_voltage : Option ℚ := none
  bat_current : Option ℚ := none
  bat_capacity : Option ℚ := none
  rated_capacity : Option ℚ := none
  error_code : Option String := none

/-- The `OperatingMode` dataclass (ES.GetMode result); it declares exactly
the fields `id`, `mode`, `ongrid_power`, `offgrid_power`, `bat_soc`. -/
structure OperatingMode where
  id : ℚ := 0
  mode : Option String := some "Unknown"
  ongrid_power : Option ℚ := none
  offgrid_power : Option ℚ := none
  bat_soc : Option ℚ := none

/-! ## Snapshot values and dict operations (coordinator.py) -/

/-- A value stored in the coordinator's snapshot dict: a number (int or
float), a boolean, a string, or Python `None`. -/
inductive SVal where
  | num (q : ℚ)
  | bool (b : Bool)
  | str (s : String)
  | pynone
deriving DecidableEq

/-- A poll-cycle snapshot: a Python dict from measurement name to
value, as an ordered duplicate-free association list. -/
abbrev Snapshot := List (String × SVal)

/-- Model of `d[k] = v` on a snapshot dict. -/
def sset (d : Snapshot) (k : String) (v : SVal) : Snapshot :=
  if d.any (fun kv => kv.1 = k) then
    d.map (fun kv => if kv.1 = k then (k, v) else kv)
  else d ++ [(k, v)]

/-- Model of `d.get(k)` on a snapshot dict, `none` when the key is absent. -/
def sget (d : Snapshot) (k : String) : Option SVal :=
  (d.find? (fun kv => kv.1 = k)).map (fun kv => kv.2)

/-- Model of `d.setdefault(k, v)`: insert only when the key is absent. -/
def ssetdefault (d : Snapshot) (k : String) (v : SVal) : Snapshot :=
  match sget d k with
  | some _ => d
  | none => d ++ [(k, v)]

/-- Python's `abs` on a rational. -/
def qabs (x : ℚ) : ℚ := if x < 0 then -x else x

/-- Model of `isinstance(v, (int, float))` — Python `bool` is a subclass of
`int`, so booleans count as numeric — together with `float(v)`. -/
def toNum : SVal → Option ℚ
  | SVal.num q => some q
  | SVal.bool b => some (if b then 1 else 0)
  | _ => none

/-! ## Poll orchestrator (`MarstekCoordinator._async_update_data`) -/

/-- The coordinator's cache: `self._last_data` and
`self._last_success` (the timestamp modelled as an opaque string). -/
structure CoordState where
  lastData : Option Snapshot
  lastSuccess : Option String

/-- Model of `if field is not None: status[k] = f field` — the guarded insert
used for every `EnergyStatus` field. -/
def oset (s : Snapshot) (o : Option α) (k : String) (f : α → SVal) : Snapshot :=
  match o with
  | some v => sset s k (f v)
  | none => s

/-- Model of `if field is not None: status.setdefault(k, f field)` — the guarded
fill-if-absent insert used for every `BatteryStatus` field. -/
def osetdef (s : Snapshot) (o : Option α) (k : String) (f : α → SVal) : Snapshot :=
  match o with
  | some v => ssetdefault s k (f v)
  | none => s

/-- Seed the snapshot from the present `EnergyStatus` fields
(coordinator.py lines 40–60), in source order. -/
def buildEnergy (es : EnergyStatus) : Snapshot :=
  let s : Snapshot := []
  let s := oset s es.bat_soc "bat_soc" SVal.num
  let s := oset s es.bat_cap "bat_cap" SVal.num
  let s := oset s es.pv_power "pv_power" SVal.num
  let s := oset s es.ongrid_power "ongrid_power" SVal.num
  let s := oset s es.offgrid_power "offgrid_power" SVal.num
  let s := oset s es.bat_power "bat_power" SVal.num
  let s := oset s es.total_pv_energy "total_pv_energy" SVal.num
  let s := oset s es.total_grid_output_energy "total_grid_output_energy" SVal.num
  let s := oset s es.total_grid_input_energy "total_grid_input_energy" SVal.num
  oset s es.total_load_energy "total_load_energy" SVal.num

/-- Merge the battery-status fields into the snapshot with
`setdefault` (fill-if-absent) semantics (coordinator.py lines 71–90),
in source order; a present `soc` fills both `bat_soc` and `soc`. -/
def mergeBattery (status : Snapshot) (b : BatteryStatus) : Snapshot :=
  let s := match b.soc with
    | some v => ssetdefault (ssetdefault status "bat_soc" (SVal.num v)) "soc" (SVal.num v)
    | none => status
  let s := osetdef s b.charg_flag "charg_flag" SVal.bool
  let s := osetdef s b.dischrg_flag "dischrg_flag" SVal.bool
  let s := osetdef s b.bat_temp "bat_temp" SVal.num
  let s := osetdef s b.bat_voltage "bat_voltage" SVal.num
  let s := osetdef s b.bat_current "bat_current" SVal.num
  let s := osetdef s b.bat_capacity "bat_capacity" SVal.num
  let s := osetdef s b.rated_capacity "rated_capacity" SVal.num
  osetdef s b.error_code "error_code" SVal.str

/-- Smoothing of small power flaps (coordinator.py lines 92–99): when a
positive threshold is configured and a previous snapshot exists, every
numeric entry whose key ends in `"power"` whose absolute change from
the previous snapshot's numeric value is strictly below the threshold
is replaced by the previous value.  (`k.endswith("_power") or
k.endswith("power")` is the source's condition; assigning to existing
keys of a dict while iterating a copy of its items is a value-wise
map.) -/
def smoothF (minDelta : ℤ) (prev : Snapshot) (kv : String × SVal) :
    String × SVal :=
  match toNum kv.2 with
  | none => kv
  | some q =>
    if kv.1.endsWith "_power" || kv.1.endsWith "power" then
      match sget prev kv.1 with
      | none => kv
      | some pv =>
        match toNum pv with
        | none => kv
        | some pq =>
          if qabs (q - pq) < (minDelta : ℚ) then (kv.1, pv) else kv
    else kv

/-- The guard and loop of the smoothing pass. -/
def smooth (minDelta : ℤ) : Option Snapshot → Snapshot → Snapshot
  | none, status => status
  | some prev, status =>
    if 0 < minDelta then status.map (smoothF minDelta prev)
    else status

/-- Model of `MarstekCoordinator._async_update_data` (coordinator.py lines
21–106) as a function of the cycle's three query results.  `energy`,
`mode`, `bat` are the values of `get_status`, `get_mode`,
`get_battery_status` for this cycle (`none` = failed/no data);
`minDelta` is the configured `min_power_delta_w` option; `now` is the
cycle's timestamp.  Returns the snapshot handed to the platform and
the updated cache, or the `UpdateFailed` message. -/
def updateData (minDelta : ℤ) (st : CoordState) (energy : Option EnergyStatus)
    (mode : Option OperatingMode) (bat : Option BatteryStatus) (now : String) :
    Except String (Snapshot × CoordState) :=
  match energy with
  | none =>
    match st.lastData with
    | some d =>
      if !d.isEmpty then Except.ok (sset d "_stale" (SVal.bool true), st)
      else Except.error "No valid response from device (ES.GetStatus)"
    | none => Except.error "No valid response from device (ES.GetStatus)"
  | some es =>
    let status := buildEnergy es
    let status := match mode with
      | some m =>
        sset status "es_mode"
          (match m.mode with | some s => SVal.str s | none => SVal.pynone)
      | none => status
    let status := match bat with
      | some b => mergeBattery status b
      | none => status
    let status := smooth minDelta st.lastData status
    let committed := sset (sset status "_stale" (SVal.bool false))
      "_last_success" (SVal.str (now ++ "Z"))
    Except.ok (committed, { lastData := some committed, lastSuccess := some now })

/-! ## `OperatingMode.to_dict` (api.py lines 112–119) -/

/-- Model of `getattr(m, name)` on an `OperatingMode` instance: the dataclass
defines exactly the attributes `id`, `mode`, `ongrid_power`,
`offgrid_power`, `bat_soc`; any other name raises `AttributeError`. -/
def OperatingMode.getattr (m : OperatingMode) : String → Except String SVal
  | "id" => Except.ok (SVal.num m.id)
  | "mode" =>
    Except.ok (match m.mode with | some s => SVal.str s | none => SVal.pynone)
  | "ongrid_power" =>
    Except.ok (match m.ongrid_power with | some v => SVal.num v | none => SVal.pynone)
  | "offgrid_power" =>
    Except.ok (match m.offgrid_power with | some v => SVal.num v | none => SVal.pynone)
  | "bat_soc" =>
    Except.ok (match m.bat_soc with | some v => SVal.num v | none => SVal.pynone)
  | _ => Except.error "AttributeError"

/-- Python truthiness of a snapshot value (`if cfg:`). -/
def svalTruthy : SVal → Bool
  | SVal.num q => decide (q ≠ 0)
  | SVal.bool b => b
  | SVal.str s => decide (s ≠ "")
  | SVal.pynone => false

/-- The `for cfg_name in [...]` loop body of `OperatingMode.to_dict`:
read each attribute with `getattr` (raising `AttributeError` when it
does not exist) and append it to the result when truthy. -/
def toDictLoop (m : OperatingMode) (acc : List (String × SVal)) :
    List String → Except String (List (String × SVal))
  | [] => Except.ok acc
  | n :: rest =>
    match m.getattr n with
    | Except.error e => Except.error e
    | Except.ok cfg =>
      toDictLoop m (if svalTruthy cfg then acc ++ [(n, cfg)] else acc) rest

/-- Model of `OperatingMode.to_dict`: start from `{"mode": self.mode}` and fold
the four configuration attributes `auto_cfg`, `ai_cfg`, `manual_cfg`,
`passive_cfg` through `getattr`. -/
def OperatingMode.to_dict (m : OperatingMode) :
    Except String (List (String × SVal)) :=
  toDictLoop m
    [("mode", match m.mode with | some s => SVal.str s | none => SVal.pynone)]
    ["auto_cfg", "ai_cfg", "manual_cfg", "passive_cfg"]

/-! ## Dictionary lemmas -/

/-- Lookup after `d[k] = v`: the inserted key reads back `v`, all other
keys are untouched. -/
theorem sget_sset (d : Snapshot) (k k' : String) (v : SVal) :
    sget (sset d k v) k' = if k' = k then some v else sget d k' := by
  unfold sset sget
  by_cases h : d.any (fun kv => kv.1 = k)
  · simp only [h, if_true, List.find?_map]
    have hp : ((fun kv : String × SVal => decide (kv.1 = k')) ∘
        (fun kv => if kv.1 = k then (k, v) else kv)) =
        fun kv : String × SVal => decide (kv.1 = k') := by
      funext kv
      by_cases hkv : kv.1 = k <;> simp [hkv]
    rw [hp]
    by_cases hk : k' = k
    · subst hk
      have hs : (d.find? (fun kv => decide (kv.1 = k'))).isSome := by
        rw [List.find?_isSome]
        simpa [List.any_eq_true] using h
      obtain ⟨kv0, hkv0⟩ := Option.isSome_iff_exists.mp hs
      have hkey : kv0.1 = k' := by simpa using List.find?_some hkv0
      simp [hkv0, hkey]
    · cases hf : d.find? (fun kv => decide (kv.1 = k')) with
      | none => simp [hf, hk]
      | some kv0 =>
        have hkey : kv0.1 = k' := by simpa using List.find?_some hf
        have hne : kv0.1 ≠ k := by rw [hkey]; exact hk
        simp [hf, hk, hne]
  · simp only [h, if_false, List.find?_append]
    have hnone : d.find? (fun kv => decide (kv.1 = k)) = none := by
      rw [List.find?_eq_none]
      intro x hx
      simp only [List.any_eq_true] at h
      exact fun hxk => h ⟨x, hx, by simpa using hxk⟩
    by_cases hk : k' = k
    · subst hk
      simp [hnone]
    · cases hf : d.find? (fun kv => decide (kv.1 = k')) with
      | none => simp [hf, hk, Ne.symm hk]
      | some kv0 => simp [hf, hk]

/-- Lookup after `d.setdefault(k, v)`: the target key reads back its
old value if it had one and `v` otherwise; all other keys are
untouched. -/
theorem sget_ssetdefault (d : Snapshot) (k k' : String) (v : SVal) :
    sget (ssetdefault d k v) k' =
      if k' = k then some ((sget d k).getD v) else sget d k' := by
  unfold ssetdefault
  cases h : sget d k with
  | some x =>
    by_cases hk : k' = k
    · subst hk
      simp [h]
    · simp [hk]
  | none =>
    have hnone : d.find? (fun kv => decide (kv.1 = k)) = none := by
      unfold sget at h
      exact Option.map_eq_none.mp h
    unfold sget
    rw [List.find?_append]
    by_cases hk : k' = k
    · subst hk
      simp [hnone]
    · cases hf : d.find? (fun kv => decide (kv.1 = k')) with
      | none => simp [hf, hk, Ne.symm hk]
      | some kv0 => simp [hf, hk]

/-- A key already present is untouched by `setdefault`, whatever the
target key. -/
theorem sget_ssetdefault_of_isSome (d : Snapshot) (k k2 : String) (v : SVal)
    (h : (sget d k).isSome) : sget (ssetdefault d k2 v) k = sget d k := by
  rw [sget_ssetdefault]
  by_cases hk : k = k2
  · subst hk
    obtain ⟨x, hx⟩ := Option.isSome_iff_exists.mp h
    simp [hx]
  · simp [hk]

/-- Guarded-insert lookup away from the target key. -/
theorem sget_oset_ne {α : Type} (s : Snapshot) (o : Option α) (k : String)
    (f : α → SVal) (k' : String) (h : k' ≠ k) :
    sget (oset s o k f) k' = sget s k' := by
  cases o with
  | none => rfl
  | some v => rw [oset, sget_sset, if_neg h]

/-- Guarded `setdefault` lookup away from the target key. -/
theorem sget_osetdef_ne {α : Type} (s : Snapshot) (o : Option α) (k : String)
    (f : α → SVal) (k' : String) (h : k' ≠ k) :
    sget (osetdef s o k f) k' = sget s k' := by
  cases o with
  | none => rfl
  | some v => rw [osetdef, sget_ssetdefault, if_neg h]

/-- Guarded `setdefault` never disturbs a key that already has a value,
stated in a chaining-friendly form. -/
theorem osetdef_pres {α : Type} (t : Snapshot) (o : Option α) (k2 : String)
    (f : α → SVal) (k : String) (base : Option SVal) (hb : base.isSome)
    (ht : sget t k = base) : sget (osetdef t o k2 f) k = base := by
  cases o with
  | none => exact ht
  | some v =>
    rw [osetdef, sget_ssetdefault]
    by_cases hk : k = k2
    · subst hk
      obtain ⟨x, hx⟩ := Option.isSome_iff_exists.mp hb
      rw [ht, hx]
      simp [hx]
    · rw [if_neg hk, ht]

/-! ## Smoothing and merge lemmas -/

/-- Lookup through a key-preserving value map. -/
theorem sget_map_key (f : String × SVal → String × SVal)
    (hf : ∀ kv, (f kv).1 = kv.1) (d : Snapshot) (k : String) :
    sget (d.map f) k =
      (d.find? (fun kv => kv.1 = k)).map (fun kv => (f kv).2) := by
  unfold sget
  rw [List.find?_map]
  have hp : ((fun kv : String × SVal => decide (kv.1 = k)) ∘ f) =
      fun kv : String × SVal => decide (kv.1 = k) := by
    funext kv
    simp [hf kv]
  rw [hp, Option.map_map]
  rfl

/-- The smoothing loop body never changes an entry's key. -/
theorem smoothF_key (minDelta : ℤ) (prev : Snapshot) (kv : String × SVal) :
    (smoothF minDelta prev kv).1 = kv.1 := by
  unfold smoothF
  repeat' split
  all_goals rfl

/-- Smoothing never creates a key. -/
theorem sget_smooth_none (minDelta : ℤ) (lastData : Option Snapshot)
    (status : Snapshot) (k : String) (h : sget status k = none) :
    sget (smooth minDelta lastData status) k = none := by
  cases lastData with
  | none => exact h
  | some prev =>
    have e : smooth minDelta (some prev) status =
        if 0 < minDelta then status.map (smoothF minDelta prev) else status := rfl
    by_cases hd : 0 < minDelta
    · rw [e, if_pos hd, sget_map_key _ (smoothF_key minDelta prev)]
      have : status.find? (fun kv => decide (kv.1 = k)) = none :=
        Option.map_eq_none.mp h
      simp [this]
    · rw [e, if_neg hd]
      exact h

/-- The committed value of a numeric power-named key under smoothing:
frozen to the previous value when the change is strictly below the
threshold, the new reading otherwise. -/
theorem sget_smooth_num (minDelta : ℤ) (prev status : Snapshot) (k : String)
    (q pq : ℚ) (hδ : 0 < minDelta) (hs : sget status k = some (SVal.num q))
    (hk : k.endsWith "_power" || k.endsWith "power")
    (hp : sget prev k = some (SVal.num pq)) :
    sget (smooth minDelta (some prev) status) k =
      some (if qabs (q - pq) < (minDelta : ℚ) then SVal.num pq else SVal.num q) := by
  have e : smooth minDelta (some prev) status =
      if 0 < minDelta then status.map (smoothF minDelta prev) else status := rfl
  rw [e, if_pos hδ, sget_map_key _ (smoothF_key minDelta prev)]
  obtain ⟨kv0, hkv0⟩ : ∃ kv0,
      status.find? (fun kv => decide (kv.1 = k)) = some kv0 := by
    unfold sget at hs
    cases hf : status.find? (fun kv => decide (kv.1 = k)) with
    | none => rw [hf] at hs; simp at hs
    | some kv0 => exact ⟨kv0, rfl⟩
  have hkey : kv0.1 = k := by simpa using List.find?_some hkv0
  have hval : kv0.2 = SVal.num q := by
    unfold sget at hs
    rw [hkv0] at hs
    simpa using hs
  have ekv : kv0 = (k, SVal.num q) := Prod.ext hkey hval
  rw [hkv0, ekv]
  show some ((smoothF minDelta prev (k, SVal.num q)).2) =
    some (if qabs (q - pq) < (minDelta : ℚ) then SVal.num pq else SVal.num q)
  unfold smoothF
  simp only [toNum, hk, if_true, hp]
  split <;> rfl

/-- The battery merge never overwrites a key that already has a value
(fill-if-absent across all nine guarded inserts). -/
theorem sget_mergeBattery_of_isSome (s : Snapshot) (b : BatteryStatus)
    (k : String) (h : (sget s k).isSome) :
    sget (mergeBattery s b) k = sget s k := by
  have hsoc : sget (match b.soc with
      | some v => ssetdefault (ssetdefault s "bat_soc" (SVal.num v)) "soc" (SVal.num v)
      | none => s) k = sget s k := by
    cases b.soc with
    | none => rfl
    | some v =>
      have h1 : sget (ssetdefault s "bat_soc" (SVal.num v)) k = sget s k :=
        sget_ssetdefault_of_isSome s k "bat_soc" (SVal.num v) h
      show sget (ssetdefault (ssetdefault s "bat_soc" (SVal.num v)) "soc"
        (SVal.num v)) k = sget s k
      have h2 : (sget (ssetdefault s "bat_soc" (SVal.num v)) k).isSome := by
        rw [h1]
        exact h
      rw [sget_ssetdefault_of_isSome _ _ _ _ h2, h1]
  show sget (osetdef (osetdef (osetdef (osetdef (osetdef (osetdef (osetdef
      (osetdef (match b.soc with
        | some v => ssetdefault (ssetdefault s "bat_soc" (SVal.num v)) "soc" (SVal.num v)
        | none => s)
      b.charg_flag "charg_flag" SVal.bool)
      b.dischrg_flag "dischrg_flag" SVal.bool)
      b.bat_temp "bat_temp" SVal.num)
      b.bat_voltage "bat_voltage" SVal.num)
      b.bat_current "bat_current" SVal.num)
      b.bat_capacity "bat_capacity" SVal.num)
      b.rated_capacity "rated_capacity" SVal.num)
      b.error_code "error_code" SVal.str) k = sget s k
  exact osetdef_pres _ _ _ _ _ _ h (osetdef_pres _ _ _ _ _ _ h
    (osetdef_pres _ _ _ _ _ _ h (osetdef_pres _ _ _ _ _ _ h
    (osetdef_pres _ _ _ _ _ _ h (osetdef_pres _ _ _ _ _ _ h
    (osetdef_pres _ _ _ _ _ _ h (osetdef_pres _ _ _ _ _ _ h hsoc)))))))

/-- The energy seed never writes the `es_mode` key. -/
theorem sget_buildEnergy_es_mode (es : EnergyStatus) :
    sget (buildEnergy es) "es_mode" = none := by
  show sget (oset (oset (oset (oset (oset (oset (oset (oset (oset (oset []
      es.bat_soc "bat_soc" SVal.num)
      es.bat_cap "bat_cap" SVal.num)
      es.pv_power "pv_power" SVal.num)
      es.ongrid_power "ongrid_power" SVal.num)
      es.offgrid_power "offgrid_power" SVal.num)
      es.bat_power "bat_power" SVal.num)
      es.total_pv_energy "total_pv_energy" SVal.num)
      es.total_grid_output_energy "total_grid_output_energy" SVal.num)
      es.total_grid_input_energy "total_grid_input_energy" SVal.num)
      es.total_load_energy "total_load_energy" SVal.num) "es_mode" = none
  rw [sget_oset_ne _ _ _ _ _ (by decide), sget_oset_ne _ _ _ _ _ (by decide),
    sget_oset_ne _ _ _ _ _ (by decide), sget_oset_ne _ _ _ _ _ (by decide),
    sget_oset_ne _ _ _ _ _ (by decide), sget_oset_ne _ _ _ _ _ (by decide),
    sget_oset_ne _ _ _ _ _ (by decide), sget_oset_ne _ _ _ _ _ (by decide),
    sget_oset_ne _ _ _ _ _ (by decide), sget_oset_ne _ _ _ _ _ (by decide)]
  rfl

/-- The battery merge never writes the `es_mode` key. -/
theorem sget_mergeBattery_es_mode (s : Snapshot) (b : BatteryStatus) :
    sget (mergeBattery s b) "es_mode" = sget s "es_mode" := by
  have hsoc : sget (match b.soc with
      | some v => ssetdefault (ssetdefault s "bat_soc" (SVal.num v)) "soc" (SVal.num v)
      | none => s) "es_mode" = sget s "es_mode" := by
    cases b.soc with
    | none => rfl
    | some v =>
      show sget (ssetdefault (ssetdefault s "bat_soc" (SVal.num v)) "soc"
        (SVal.num v)) "es_mode" = sget s "es_mode"
      rw [sget_ssetdefault, if_neg (by decide), sget_ssetdefault,
        if_neg (by decide)]
  show sget (osetdef (osetdef (osetdef (osetdef (osetdef (osetdef (osetdef
      (osetdef (match b.soc with
        | some v => ssetdefault (ssetdefault s "bat_soc" (SVal.num v)) "soc" (SVal.num v)
        | none => s)
      b.charg_flag "charg_flag" SVal.bool)
      b.dischrg_flag "dischrg_flag" SVal.bool)
      b.bat_temp "bat_temp" SVal.num)
      b.bat_voltage "bat_voltage" SVal.num)
      b.bat_current "bat_current" SVal.num)
      b.bat_capacity "bat_capacity" SVal.num)
      b.rated_capacity "rated_capacity" SVal.num)
      b.error_code "error_code" SVal.str) "es_mode" = sget s "es_mode"
  rw [sget_osetdef_ne _ _ _ _ _ (by decide), sget_osetdef_ne _ _ _ _ _ (by decide),
    sget_osetdef_ne _ _ _ _ _ (by decide), sget_osetdef_ne _ _ _ _ _ (by decide),
    sget_osetdef_ne _ _ _ _ _ (by decide), sget_osetdef_ne _ _ _ _ _ (by decide),
    sget_osetdef_ne _ _ _ _ _ (by decide), sget_osetdef_ne _ _ _ _ _ (by decide),
    hsoc]

/-! ## Claim theorems: poll orchestrator -/

/-- C2: when the primary energy/power query fails and a previous
successful snapshot exists, the cycle returns a copy of that snapshot
with only the `_stale` flag set to `true` and no other key changed, and
leaves the cached snapshot and the stored last-success timestamp
unchanged. -/
theorem stale_fallback_preserves_cache (minDelta : ℤ) (ls : Option String)
    (mode : Option OperatingMode) (bat : Option BatteryStatus) (now : String)
    (d : Snapshot) (h2 : d ≠ []) :
    updateData minDelta ⟨some d, ls⟩ none mode bat now =
      Except.ok (sset d "_stale" (SVal.bool true), ⟨some d, ls⟩) ∧
    sget (sset d "_stale" (SVal.bool true)) "_stale" = some (SVal.bool true) ∧
    (∀ k, k ≠ "_stale" → sget (sset d "_stale" (SVal.bool true)) k = sget d k) := by
  refine ⟨?_, ?_, ?_⟩
  · show (if !d.isEmpty then
        Except.ok (sset d "_stale" (SVal.bool true), (⟨some d, ls⟩ : CoordState))
      else Except.error "No valid response from device (ES.GetStatus)") =
      Except.ok (sset d "_stale" (SVal.bool true), (⟨some d, ls⟩ : CoordState))
    have hne : (!d.isEmpty) = true := by
      cases d with
      | nil => exact absurd rfl h2
      | cons a t => rfl
    rw [hne]
    exact if_pos rfl
  · rw [sget_sset]
    simp
  · intro k hk
    rw [sget_sset, if_neg hk]

/-- Witness for C2 at the spec's example: previous snapshot
`{bat_soc: 40}`, failed primary query. -/
theorem stale_fallback_preserves_cache_w :
    updateData 0 ⟨some [("bat_soc", SVal.num 40)], none⟩ none none none "t" =
      Except.ok (sset [("bat_soc", SVal.num 40)] "_stale" (SVal.bool true),
        ⟨some [("bat_soc", SVal.num 40)], none⟩) ∧
    sget (sset [("bat_soc", SVal.num 40)] "_stale" (SVal.bool true)) "_stale" =
      some (SVal.bool true) ∧
    (∀ k, k ≠ "_stale" →
      sget (sset [("bat_soc", SVal.num 40)] "_stale" (SVal.bool true)) k =
        sget [("bat_soc", SVal.num 40)] k) :=
  stale_fallback_preserves_cache 0 none none none "t"
    [("bat_soc", SVal.num 40)] (by decide)

/-- C3: the cycle raises the hard `UpdateFailed` error exactly when the
primary query fails and no (nonempty) previous snapshot exists; when
the primary query succeeds the cycle always commits, whatever the mode
and battery queries did, and a failed mode query merely leaves the
`es_mode` key absent. -/
theorem update_failed_iff (minDelta : ℤ) (ld : Option Snapshot)
    (ls : Option String) (energy : Option EnergyStatus)
    (mode : Option OperatingMode) (bat : Option BatteryStatus) (now : String) :
    ((∃ e, updateData minDelta ⟨ld, ls⟩ energy mode bat now = Except.error e) ↔
      energy = none ∧ (ld = none ∨ ld = some [])) ∧
    (∀ es, energy = some es → mode = none →
      ∃ s st2, updateData minDelta ⟨ld, ls⟩ energy mode bat now =
        Except.ok (s, st2) ∧ sget s "es_mode" = none) := by
  constructor
  · cases energy with
    | some es =>
      constructor
      · rintro ⟨e, he⟩
        obtain ⟨s, st2, hok⟩ : ∃ s st2,
            updateData minDelta ⟨ld, ls⟩ (some es) mode bat now =
              Except.ok (s, st2) := ⟨_, _, rfl⟩
        rw [hok] at he
        exact Except.noConfusion he
      · rintro ⟨h, -⟩
        exact Option.noConfusion h
    | none =>
      cases ld with
      | none =>
        constructor
        · intro _
          exact ⟨rfl, Or.inl rfl⟩
        · intro _
          exact ⟨"No valid response from device (ES.GetStatus)", rfl⟩
      | some d =>
        cases d with
        | nil =>
          constructor
          · intro _
            exact ⟨rfl, Or.inr rfl⟩
          · intro _
            exact ⟨"No valid response from device (ES.GetStatus)", rfl⟩
        | cons a t =>
          constructor
          · rintro ⟨e, he⟩
            have hok : updateData minDelta ⟨some (a :: t), ls⟩ none mode bat now =
                Except.ok (sset (a :: t) "_stale" (SVal.bool true),
                  ⟨some (a :: t), ls⟩) := rfl
            rw [hok] at he
            exact Except.noConfusion he
          · rintro ⟨-, h | h⟩
            · exact Option.noConfusion h
            · exact List.noConfusion (Option.some.inj h)
  · intro es he hm
    subst he
    subst hm
    refine ⟨_, _, rfl, ?_⟩
    rw [sget_sset, if_neg (by decide), sget_sset, if_neg (by decide)]
    apply sget_smooth_none
    cases bat with
    | none => exact sget_buildEnergy_es_mode es
    | some b =>
      rw [sget_mergeBattery_es_mode]
      exact sget_buildEnergy_es_mode es

/-- Witness for C3: a first cycle whose primary query succeeds with an
empty record and whose mode query failed commits a snapshot without the
`es_mode` key. -/
theorem update_failed_iff_w :
    ∃ s st2, updateData 0 ⟨none, none⟩ (some {}) none (some {}) "t" =
      Except.ok (s, st2) ∧ sget s "es_mode" = none :=
  (update_failed_iff 0 none none (some {}) none (some {}) "t").2 {} rfl rfl

/-- C4: a key set by the energy/power query is never overwritten by the
battery-status merge (fill-if-absent only), and at the spec's example —
energy `bat_soc=50`, battery `soc=55` — the committed snapshot carries
`bat_soc=50` and `soc=55`. -/
theorem merge_precedence :
    (∀ (s : Snapshot) (b : BatteryStatus) (k : String),
        (sget s k).isSome = true → sget (mergeBattery s b) k = sget s k) ∧
    (∃ s st2, updateData 0 ⟨none, none⟩ (some { bat_soc := some 50 }) none
        (some { soc := some 55 }) "t" = Except.ok (s, st2) ∧
      sget s "bat_soc" = some (SVal.num 50) ∧
      sget s "soc" = some (SVal.num 55)) :=
  ⟨sget_mergeBattery_of_isSome,
   ⟨_, _, rfl, by with_unfolding_all decide, by with_unfolding_all decide⟩⟩

/-- Witness for C4: `bat_soc` already set to 50 survives a battery
merge carrying `soc=55`. -/
theorem merge_precedence_w :
    sget (mergeBattery [("bat_soc", SVal.num 50)] { soc := some 55 })
      "bat_soc" = sget [("bat_soc", SVal.num 50)] "bat_soc" :=
  merge_precedence.1 [("bat_soc", SVal.num 50)] { soc := some 55 } "bat_soc"
    (by decide)

/-- C5: with a positive configured threshold and a previous snapshot,
every numeric power-named key commits the previous value when the
absolute change is strictly below the threshold and the new reading
otherwise; at the spec's example (previous `bat_power=100`,
threshold 5) a reading of 103 commits 100 and a reading of 106 commits
106. -/
theorem power_smoothing :
    (∀ (minDelta : ℤ) (prev status : Snapshot) (k : String) (q pq : ℚ),
        0 < minDelta → sget status k = some (SVal.num q) →
        (k.endsWith "_power" || k.endsWith "power") = true →
        sget prev k = some (SVal.num pq) →
        sget (smooth minDelta (some prev) status) k =
          some (if qabs (q - pq) < (minDelta : ℚ) then SVal.num pq
            else SVal.num q)) ∧
    (∃ s st2, updateData 5 ⟨some [("bat_power", SVal.num 100)], none⟩
        (some { bat_power := some 103 }) none none "t" = Except.ok (s, st2) ∧
      sget s "bat_power" = some (SVal.num 100)) ∧
    (∃ s st2, updateData 5 ⟨some [("bat_power", SVal.num 100)], none⟩
        (some { bat_power := some 106 }) none none "t" = Except.ok (s, st2) ∧
      sget s "bat_power" = some (SVal.num 106)) :=
  ⟨sget_smooth_num,
   ⟨_, _, rfl, by with_unfolding_all decide⟩,
   ⟨_, _, rfl, by with_unfolding_all decide⟩⟩

/-- Witness for C5 at the spec's example inputs. -/
theorem power_smoothing_w :
    sget (smooth 5 (some [("bat_power", SVal.num 100)])
        [("bat_power", SVal.num 103)]) "bat_power" =
      some (if qabs ((103 : ℚ) - 100) < ((5 : ℤ) : ℚ) then SVal.num 100
        else SVal.num 103) :=
  power_smoothing.1 5 [("bat_power", SVal.num 100)]
    [("bat_power", SVal.num 103)] "bat_power" 103 100 (by decide) (by decide)
    (by with_unfolding_all decide) (by decide)

/-! ## Claim theorems: request identifiers and `to_dict` -/

/-- Lemma: `_next_id` increments below the wrap point. -/
theorem nextId_eq_succ (s : ℕ) (h : s + 1 < 2 ^ 31) : nextId s = s + 1 := by
  unfold nextId
  have hmask : (s + 1) &&& 0x7FFFFFFF = (s + 1) % 2 ^ 31 := by
    have h31 : (0x7FFFFFFF : ℕ) = 2 ^ 31 - 1 := by norm_num
    rw [h31, Nat.and_pow_two_sub_one_eq_mod]
  rw [hmask, Nat.mod_eq_of_lt h]
  simp

/-- C6: every issued request identifier is nonzero and lies in
`[1, 2^31 - 1]`; below the wrap point `_next_id` increments by one (so
identifiers increase monotonically); at the wrap point it returns to 1;
and the identifiers of up to `2^31 - 1` consecutive operations starting
from a fresh client are `1, 2, …, n`, pairwise distinct. -/
theorem next_id_spec :
    (∀ s : ℕ, nextId s ≠ 0 ∧ 1 ≤ nextId s ∧ nextId s ≤ 2 ^ 31 - 1) ∧
    (∀ s : ℕ, s + 1 < 2 ^ 31 → nextId s = s + 1) ∧
    nextId (2 ^ 31 - 1) = 1 ∧
    (∀ n : ℕ, n ≤ 2 ^ 31 - 1 →
      idSeq 0 n = List.range' 1 n ∧ (idSeq 0 n).Nodup) := by
  have hmask : ∀ x : ℕ, x &&& 0x7FFFFFFF = x % 2 ^ 31 := by
    intro x
    have h31 : (0x7FFFFFFF : ℕ) = 2 ^ 31 - 1 := by norm_num
    rw [h31, Nat.and_pow_two_sub_one_eq_mod]
  refine ⟨?_, nextId_eq_succ, ?_, ?_⟩
  · intro s
    unfold nextId
    rw [hmask]
    by_cases h0 : (s + 1) % 2 ^ 31 = 0
    · rw [h0]
      norm_num
    · rw [if_neg h0]
      refine ⟨h0, Nat.one_le_iff_ne_zero.mpr h0, ?_⟩
      exact Nat.le_sub_one_of_lt (Nat.mod_lt _ (by norm_num))
  · unfold nextId
    rw [hmask]
    have : (2 ^ 31 - 1 + 1) % 2 ^ 31 = 0 := by norm_num
    rw [this]
    rfl
  · have key : ∀ (n s : ℕ), s + n ≤ 2 ^ 31 - 1 →
        idSeq s n = List.range' (s + 1) n := by
      intro n
      induction n with
      | zero => intro s _; rfl
      | succ n ih =>
        intro s h
        have hn : nextId s = s + 1 := nextId_eq_succ s (by omega)
        show nextId s :: idSeq (nextId s) n = List.range' (s + 1) (n + 1)
        rw [hn, ih (s + 1) (by omega), List.range'_succ]
    intro n hn
    have e := key n 0 (by omega)
    refine ⟨e, ?_⟩
    rw [e]
    exact List.nodup_range' 1 n

/-- Witness for C6 at concrete inputs: the first identifier from a
fresh client, an increment at 41, and the first five identifiers. -/
theorem next_id_spec_w :
    (nextId 0 ≠ 0 ∧ 1 ≤ nextId 0 ∧ nextId 0 ≤ 2 ^ 31 - 1) ∧
    nextId 41 = 42 ∧
    (idSeq 0 5 = List.range' 1 5 ∧ (idSeq 0 5).Nodup) :=
  ⟨next_id_spec.1 0, next_id_spec.2.1 41 (by norm_num),
   next_id_spec.2.2.2 5 (by norm_num)⟩

/-- C10: `OperatingMode.to_dict` reads the non-existent attribute
`auto_cfg` on its very first loop iteration, so on every instance it
raises `AttributeError` and never returns normally. -/
theorem to_dict_always_raises (m : OperatingMode) :
    OperatingMode.to_dict m = Except.error "AttributeError" := rfl

/-! ## Claim theorems: transaction client -/

/-- The receive loop never examines sender ports: remapping every
frame's source port leaves the verdict unchanged. -/
theorem recvLoop_port_irrel (d : ℚ) (reqId : ℤ) (ip : String)
    (g : Frame → ℕ) (frames : List Frame) :
    recvLoop d reqId ip (frames.map (fun f => { f with port := g f })) =
      recvLoop d reqId ip frames := by
  induction frames with
  | nil => rfl
  | cons f rest ih =>
    show recvLoop d reqId ip ({ f with port := g f } ::
      rest.map (fun f => { f with port := g f })) = _
    rw [recvLoop, recvLoop]
    rw [show ({ f with port := g f } : Frame).time = f.time from rfl,
        show ({ f with port := g f } : Frame).ip = f.ip from rfl,
        show ({ f with port := g f } : Frame).payload = f.payload from rfl, ih]

/-- C1: a reply returned by the receive loop comes from a datagram that
arrived before the (fixed) deadline, was sent from the configured
device IP, and decodes/parses to exactly the returned JSON object,
whose `id` member equals the request identifier under Python equality;
every datagram violating the sender-IP, JSON-object or identifier
checks is skipped with the wait continuing unchanged; and the sender's
port is never examined. -/
theorem udp_reply_correlated (d : ℚ) (reqId : ℤ) (ip : String)
    (frames : List Frame) (o : Json)
    (h : recvLoop d reqId ip frames = some o) :
    (∃ f ∈ frames, f.time < d ∧ f.ip = ip ∧
      jsonLoads (utf8DecodeIgnore f.payload) = some o ∧
      ∃ kvs, o = Json.obj kvs ∧ pyEqInt (jget kvs "id") reqId = true) ∧
    (∀ f rest, f.time < d → frameAccept reqId ip f = none →
      recvLoop d reqId ip (f :: rest) = recvLoop d reqId ip rest) ∧
    (∀ g : Frame → ℕ,
      recvLoop d reqId ip (frames.map (fun f => { f with port := g f })) =
        some o) := by
  refine ⟨?_, ?_, ?_⟩
  · induction frames with
    | nil => exact Option.noConfusion h
    | cons f rest ih =>
      rw [recvLoop] at h
      by_cases ht : d ≤ f.time
      · rw [if_pos ht] at h
        exact Option.noConfusion h
      · rw [if_neg ht] at h
        by_cases hip : f.ip ≠ ip
        · rw [if_pos hip] at h
          obtain ⟨f2, hmem, hrest⟩ := ih h
          exact ⟨f2, List.mem_cons_of_mem f hmem, hrest⟩
        · rw [if_neg hip] at h
          cases hj : jsonLoads (utf8DecodeIgnore f.payload) with
          | none =>
            rw [hj] at h
            replace h : recvLoop d reqId ip rest = some o := h
            obtain ⟨f2, hmem, hrest⟩ := ih h
            exact ⟨f2, List.mem_cons_of_mem f hmem, hrest⟩
          | some obj =>
            rw [hj] at h
            cases obj with
            | obj kvs =>
              by_cases hid : pyEqInt (jget kvs "id") reqId = true
              · replace h : (if pyEqInt (jget kvs "id") reqId = true then
                    some (Json.obj kvs)
                  else recvLoop d reqId ip rest) = some o := h
                rw [if_pos hid] at h
                have ho : o = Json.obj kvs := (Option.some.inj h).symm
                refine ⟨f, List.mem_cons_self f rest, not_le.mp ht,
                  not_not.mp hip, ?_, kvs, ho, hid⟩
                rw [ho]
                exact hj
              · replace h : (if pyEqInt (jget kvs "id") reqId = true then
                    some (Json.obj kvs)
                  else recvLoop d reqId ip rest) = some o := h
                rw [if_neg hid] at h
                obtain ⟨f2, hmem, hrest⟩ := ih h
                exact ⟨f2, List.mem_cons_of_mem f hmem, hrest⟩
            | null =>
              replace h : recvLoop d reqId ip rest = some o := h
              obtain ⟨f2, hmem, hrest⟩ := ih h
              exact ⟨f2, List.mem_cons_of_mem f hmem, hrest⟩
            | bool b =>
              replace h : recvLoop d reqId ip rest = some o := h
              obtain ⟨f2, hmem, hrest⟩ := ih h
              exact ⟨f2, List.mem_cons_of_mem f hmem, hrest⟩
            | num q =>
              replace h : recvLoop d reqId ip rest = some o := h
              obtain ⟨f2, hmem, hrest⟩ := ih h
              exact ⟨f2, List.mem_cons_of_mem f hmem, hrest⟩
            | str s =>
              replace h : recvLoop d reqId ip rest = some o := h
              obtain ⟨f2, hmem, hrest⟩ := ih h
              exact ⟨f2, List.mem_cons_of_mem f hmem, hrest⟩
            | arr xs =>
              replace h : recvLoop d reqId ip rest = some o := h
              obtain ⟨f2, hmem, hrest⟩ := ih h
              exact ⟨f2, List.mem_cons_of_mem f hmem, hrest⟩
  · intro f rest ht hacc
    rw [recvLoop, if_neg (not_le.mpr ht)]
    unfold frameAccept at hacc
    by_cases hip : f.ip ≠ ip
    · rw [if_pos hip]
    · rw [if_neg hip]
      rw [if_neg hip] at hacc
      cases hj : jsonLoads (utf8DecodeIgnore f.payload) with
      | none => rfl
      | some obj =>
        rw [hj] at hacc
        cases obj with
        | obj kvs =>
          by_cases hid : pyEqInt (jget kvs "id") reqId = true
          · replace hacc : (if pyEqInt (jget kvs "id") reqId = true then
                some (Json.obj kvs) else none) = none := hacc
            rw [if_pos hid] at hacc
            exact Option.noConfusion hacc
          · show (if pyEqInt (jget kvs "id") reqId = true then
                some (Json.obj kvs)
              else recvLoop d reqId ip rest) = recvLoop d reqId ip rest
            rw [if_neg hid]
        | null => rfl
        | bool b => rfl
        | num q => rfl
        | str s => rfl
        | arr xs => rfl
  · intro g
    rw [recvLoop_port_irrel]
    exact h

/-- Witness for C1: a single well-formed datagram from the device IP
carrying the request id `1` is accepted, and the conclusions hold for
it. -/
theorem udp_reply_correlated_w :
    (recvLoop 5 1 "192.168.1.10"
      [⟨[123, 34, 105, 100, 34, 58, 32, 49, 125], "192.168.1.10", 30000, 1⟩] =
      some (Json.obj [("id", Json.num 1)])) ∧
    ((∃ f ∈ [(⟨[123, 34, 105, 100, 34, 58, 32, 49, 125],
        "192.168.1.10", 30000, 1⟩ : Frame)], f.time < 5 ∧
        f.ip = "192.168.1.10" ∧
        jsonLoads (utf8DecodeIgnore f.payload) =
          some (Json.obj [("id", Json.num 1)]) ∧
        ∃ kvs, Json.obj [("id", Json.num 1)] = Json.obj kvs ∧
          pyEqInt (jget kvs "id") 1 = true) ∧
      (∀ f rest, f.time < 5 → frameAccept 1 "192.168.1.10" f = none →
        recvLoop 5 1 "192.168.1.10" (f :: rest) =
          recvLoop 5 1 "192.168.1.10" rest) ∧
      (∀ g : Frame → ℕ,
        recvLoop 5 1 "192.168.1.10"
          ([(⟨[123, 34, 105, 100, 34, 58, 32, 49, 125],
            "192.168.1.10", 30000, 1⟩ : Frame)].map
              (fun f => { f with port := g f })) =
          some (Json.obj [("id", Json.num 1)]))) :=
  ⟨rfl, udp_reply_correlated 5 1 "192.168.1.10"
    [⟨[123, 34, 105, 100, 34, 58, 32, 49, 125], "192.168.1.10", 30000, 1⟩]
    (Json.obj [("id", Json.num 1)]) rfl⟩

/-- C7 counterexample: a datagram whose bytes are NOT valid UTF-8 (a
stray `0xFF` inside `{"id":7}`) is nevertheless accepted and returned
to the caller, because `resp_bytes.decode("utf-8", "ignore")` silently
drops the invalid byte instead of failing — contradicting "such a frame
is never accepted as the reply". -/
theorem invalid_utf8_frame_accepted :
    utf8Valid [123, 34, 105, 100, 34, 58, 55, 255, 125] = false ∧
    recvLoop 5 7 "192.168.1.10"
      [⟨[123, 34, 105, 100, 34, 58, 55, 255, 125], "192.168.1.10", 30000, 1⟩] =
      some (Json.obj [("id", Json.num 7)]) :=
  ⟨rfl, rfl⟩

/-- C7 (amended): undecodable byte sequences inside a datagram are
dropped (`errors="ignore"`) rather than causing the frame's discard;
the fate of a datagram arriving before the deadline is decided entirely
by `frameAccept` on the lossily decoded text, and a discarded frame
re-enters the loop with the deadline unchanged. -/
theorem recv_step_decided_by_accept (d : ℚ) (reqId : ℤ) (ip : String)
    (f : Frame) (rest : List Frame) (ht : f.time < d) :
    recvLoop d reqId ip (f :: rest) =
      match frameAccept reqId ip f with
      | some o => some o
      | none => recvLoop d reqId ip rest := by
  rw [recvLoop, if_neg (not_le.mpr ht)]
  unfold frameAccept
  by_cases hip : f.ip ≠ ip
  · rw [if_pos hip, if_pos hip]
  · rw [if_neg hip, if_neg hip]
    cases hj : jsonLoads (utf8DecodeIgnore f.payload) with
    | none => rfl
    | some obj =>
      cases obj with
      | obj kvs =>
        show (if pyEqInt (jget kvs "id") reqId = true then some (Json.obj kvs)
            else recvLoop d reqId ip rest) =
          match (if pyEqInt (jget kvs "id") reqId = true then
            some (Json.obj kvs) else none) with
          | some o => some o
          | none => recvLoop d reqId ip rest
        by_cases hid : pyEqInt (jget kvs "id") reqId = true
        · rw [if_pos hid, if_pos hid]
        · rw [if_neg hid, if_neg hid]
      | null => rfl
      | bool b => rfl
      | num q => rfl
      | str s => rfl
      | arr xs => rfl

/-- Witness for the amended C7: one frame before the deadline. -/
theorem recv_step_decided_by_accept_w :
    recvLoop 5 7 "a" [⟨[255], "b", 1, 1⟩] =
      match frameAccept 7 "a" ⟨[255], "b", 1, 1⟩ with
      | some o => some o
      | none => recvLoop 5 7 "a" [] :=
  recv_step_decided_by_accept 5 7 "a" ⟨[255], "b", 1, 1⟩ [] (by decide)

/-- C8 counterexample: a reply whose result object carries
`set_result: null` — an acceptance flag that is present and falsy — is
interpreted as success (`True`), because `result.get("set_result")`
returns `None` both for an absent key and for a null value. -/
theorem set_mode_null_flag_returns_true :
    setModeResult (some (Json.obj [("id", Json.num 5),
      ("result", Json.obj [("set_result", Json.null)])])) = true ∧
    jmem [("set_result", Json.null)] "set_result" = true ∧
    pyTruthy Json.null = false :=
  ⟨rfl, rfl, rfl⟩

/-- The acceptance-flag interpretation `bool(ok) if ok is not None else
True` succeeds iff the retrieved value is null (key absent or value
null) or truthy. -/
theorem flag_interp (x : Json) :
    (match x with
      | Json.null => true
      | ok => pyTruthy ok) = true ↔
      (x = Json.null ∨ pyTruthy x = true) := by
  cases x <;> simp [pyTruthy]

/-- C8 (amended): `set_mode` returns `true` exactly when a nonempty
reply object was received whose `result` member is an object in which
the `set_result` member is truthy, null, or absent (the code cannot
distinguish null from absent); it returns `false` when no usable reply
arrived, when `result` is not an object, or when `set_result` is
present with a falsy value other than null. -/
theorem set_mode_acceptance (resp : Option Json) :
    setModeResult resp = true ↔
      ∃ kvs rkvs, resp = some (Json.obj kvs) ∧ kvs ≠ [] ∧
        jget kvs "result" = Json.obj rkvs ∧
        (jget rkvs "set_result" = Json.null ∨
          pyTruthy (jget rkvs "set_result") = true) := by
  cases resp with
  | none =>
    constructor
    · intro h
      exact Bool.noConfusion h
    · rintro ⟨kvs, rkvs, h, -⟩
      exact Option.noConfusion h
  | some r =>
    cases r with
    | obj kvs =>
      by_cases hkv : kvs.isEmpty = true
      · have hpt : pyTruthy (Json.obj kvs) = false := by
          simp [pyTruthy, hkv]
        have hL : setModeResult (some (Json.obj kvs)) = false := by
          simp only [setModeResult, hpt]
          rfl
        rw [hL]
        constructor
        · intro h
          exact Bool.noConfusion h
        · rintro ⟨kvs2, rkvs, hinj, hne, -⟩
          have h1 : Json.obj kvs = Json.obj kvs2 := Option.some.inj hinj
          injection h1 with h2
          subst h2
          exact (hne (List.isEmpty_iff.mp hkv)).elim
      · have hpt : (!pyTruthy (Json.obj kvs)) = false := by
          simp [pyTruthy, hkv]
        have hL : setModeResult (some (Json.obj kvs)) =
            match jget kvs "result" with
            | Json.obj rkvs =>
              match jget rkvs "set_result" with
              | Json.null => true
              | ok => pyTruthy ok
            | _ => false := by
          simp only [setModeResult, hpt]
          rw [if_neg Bool.false_ne_true]
        rw [hL]
        have hne : kvs ≠ [] := by
          intro h0
          exact hkv (by simp [h0])
        cases hX : jget kvs "result" with
        | obj rkvs =>
          rw [flag_interp]
          constructor
          · intro hcond
            exact ⟨kvs, rkvs, rfl, hne, hX, hcond⟩
          · rintro ⟨kvs2, rkvs2, hinj, -, hr2, hcond⟩
            have h1 : Json.obj kvs = Json.obj kvs2 := Option.some.inj hinj
            injection h1 with h2
            subst h2
            rw [hX] at hr2
            injection hr2 with h3
            subst h3
            exact hcond
        | null =>
          constructor
          · intro hL2
            exact Bool.noConfusion hL2
          · rintro ⟨kvs2, rkvs2, hinj, -, hr2, -⟩
            have h1 : Json.obj kvs = Json.obj kvs2 := Option.some.inj hinj
            injection h1 with h2
            subst h2
            rw [hX] at hr2
            exact Json.noConfusion hr2
        | bool b =>
          constructor
          · intro hL2
            exact Bool.noConfusion hL2
          · rintro ⟨kvs2, rkvs2, hinj, -, hr2, -⟩
            have h1 : Json.obj kvs = Json.obj kvs2 := Option.some.inj hinj
            injection h1 with h2
            subst h2
            rw [hX] at hr2
            exact Json.noConfusion hr2
        | num q =>
          constructor
          · intro hL2
            exact Bool.noConfusion hL2
          · rintro ⟨kvs2, rkvs2, hinj, -, hr2, -⟩
            have h1 : Json.obj kvs = Json.obj kvs2 := Option.some.inj hinj
            injection h1 with h2
            subst h2
            rw [hX] at hr2
            exact Json.noConfusion hr2
        | str s =>
          constructor
          · intro hL2
            exact Bool.noConfusion hL2
          · rintro ⟨kvs2, rkvs2, hinj, -, hr2, -⟩
            have h1 : Json.obj kvs = Json.obj kvs2 := Option.some.inj hinj
            injection h1 with h2
            subst h2
            rw [hX] at hr2
            exact Json.noConfusion hr2
        | arr xs =>
          constructor
          · intro hL2
            exact Bool.noConfusion hL2
          · rintro ⟨kvs2, rkvs2, hinj, -, hr2, -⟩
            have h1 : Json.obj kvs = Json.obj kvs2 := Option.some.inj hinj
            injection h1 with h2
            subst h2
            rw [hX] at hr2
            exact Json.noConfusion hr2
    | null =>
      constructor
      · intro h
        exact Bool.noConfusion h
      · rintro ⟨kvs, rkvs, hinj, -, -, -⟩
        exact Json.noConfusion (Option.some.inj hinj)
    | bool b =>
      by_cases hb : (!pyTruthy (Json.bool b)) = true
      · have hL : setModeResult (some (Json.bool b)) = false := by
          simp only [setModeResult, hb]
          rfl
        rw [hL]
        constructor
        · intro h
          exact Bool.noConfusion h
        · rintro ⟨kvs, rkvs, hinj, -, -, -⟩
          exact Json.noConfusion (Option.some.inj hinj)
      · have hL : setModeResult (some (Json.bool b)) = false := by
          simp only [setModeResult]
          rw [if_neg hb]
        rw [hL]
        constructor
        · intro h
          exact Bool.noConfusion h
        · rintro ⟨kvs, rkvs, hinj, -, -, -⟩
          exact Json.noConfusion (Option.some.inj hinj)
    | num q =>
      by_cases hb : (!pyTruthy (Json.num q)) = true
      · have hL : setModeResult (some (Json.num q)) = false := by
          simp only [setModeResult, hb]
          rfl
        rw [hL]
        constructor
        · intro h
          exact Bool.noConfusion h
        · rintro ⟨kvs, rkvs, hinj, -, -, -⟩
          exact Json.noConfusion (Option.some.inj hinj)
      · have hL : setModeResult (some (Json.num q)) = false := by
          simp only [setModeResult]
          rw [if_neg hb]
        rw [hL]
        constructor
        · intro h
          exact Bool.noConfusion h
        · rintro ⟨kvs, rkvs, hinj, -, -, -⟩
          exact Json.noConfusion (Option.some.inj hinj)
    | str s =>
      by_cases hb : (!pyTruthy (Json.str s)) = true
      · have hL : setModeResult (some (Json.str s)) = false := by
          simp only [setModeResult, hb]
          rfl
        rw [hL]
        constructor
        · intro h
          exact Bool.noConfusion h
        · rintro ⟨kvs, rkvs, hinj, -, -, -⟩
          exact Json.noConfusion (Option.some.inj hinj)
      · have hL : setModeResult (some (Json.str s)) = false := by
          simp only [setModeResult]
          rw [if_neg hb]
        rw [hL]
        constructor
        · intro h
          exact Bool.noConfusion h
        · rintro ⟨kvs, rkvs, hinj, -, -, -⟩
          exact Json.noConfusion (Option.some.inj hinj)
    | arr xs =>
      by_cases hb : (!pyTruthy (Json.arr xs)) = true
      · have hL : setModeResult (some (Json.arr xs)) = false := by
          simp only [setModeResult, hb]
          rfl
        rw [hL]
        constructor
        · intro h
          exact Bool.noConfusion h
        · rintro ⟨kvs, rkvs, hinj, -, -, -⟩
          exact Json.noConfusion (Option.some.inj hinj)
      · have hL : setModeResult (some (Json.arr xs)) = false := by
          simp only [setModeResult]
          rw [if_neg hb]
        rw [hL]
        constructor
        · intro h
          exact Bool.noConfusion h
        · rintro ⟨kvs, rkvs, hinj, -, -, -⟩
          exact Json.noConfusion (Option.some.inj hinj)

/-- C9: on every execution path of `_udp_call` — accepted reply,
timeout, bind failure, endpoint-creation failure, or a send/receive
exception — the socket/endpoint is closed and the per-port gate is
released; and after a bind failure the call returns the no-reply
outcome `None` with the socket closed. -/
theorem udp_cleanup_all_paths (d : ℚ) (reqId : ℤ) (ip : String)
    (env : UdpEnv) :
    (udpCall d reqId ip env).endpointClosed = true ∧
    (udpCall d reqId ip env).gateReleased = true ∧
    (udpCall d reqId ip { env with bindOk := false }).ret = some none ∧
    (udpCall d reqId ip { env with bindOk := false }).endpointClosed = true := by
  obtain ⟨bo, co, so, fr⟩ := env
  cases bo <;> cases co <;> cases so <;> exact ⟨rfl, rfl, rfl, rfl⟩

end Marstek
